import Mathlib

/-!
WarcraftTextureForge: verification of the texture codec core.

Shallow embedding of the TGA codec (src/services/tgaService.ts), the BLP1
codec (src/services/blpService.ts) and the channel-formula evaluator
(src/services/imageProcessor.ts).  Byte buffers are `List Nat` with entries
below 256.  JavaScript typed-array semantics that the source relies on are
modelled explicitly: out-of-range reads give `undefined` (which coerces
like 0 in every use below), out-of-range writes are dropped, and a
`Uint8ClampedArray` store clamps to [0,255] rounding half to even.
-/

/-- Browser `ImageData`: width, height and the RGBA byte array
(`Uint8ClampedArray`, one `Nat` below 256 per channel byte). -/
structure ImageData where
  width : Nat
  height : Nat
  data : List Nat
deriving DecidableEq

/-- Little-endian byte quadruple stored by `DataView.setUint32(off, n, true)`
(after the implicit `ToUint32` reduction modulo 2^32). -/
def u32le (n : Nat) : List Nat :=
  [n % 256, n / 256 % 256, n / 65536 % 256, n / 16777216 % 256]

/-- Little-endian 32-bit read, `DataView.getUint32(off, true)`. -/
def readU32 (l : List Nat) (off : Nat) : Nat :=
  l.getD off 0 + 256 * l.getD (off + 1) 0 + 65536 * l.getD (off + 2) 0 +
    16777216 * l.getD (off + 3) 0

/-- `rawData[i]` on a `Uint8Array`.  An out-of-range read gives `undefined`;
in every use made by `TGAConverter.decode` (the operand of `& 0x7F` and
`& 0x80`, and values stored into a `Uint8ClampedArray`) `undefined` behaves
exactly like 0, so the out-of-range default is 0. -/
def rawGet (l : List Nat) (i : Nat) : Nat := l.getD i 0

/-- `TGAConverter.setPixel` (tgaService.ts:66-82).  `targetY` is computed in
`Int` because `height - 1 - y` is negative in JavaScript when an RLE run
overshoots the last pixel; a write at an out-of-range typed-array index is
dropped, which `List.set` matches above the length and the explicit guard
matches for negative indices. -/
def setPixel (pixels : List Nat) (index width height r g b a : Nat)
    (isBottomToTop : Bool) : List Nat :=
  let x := index % width
  let y := index / width
  let targetY : Int := if isBottomToTop then (height : Int) - 1 - y else y
  let pixelIdx : Int := (targetY * width + x) * 4
  if pixelIdx < 0 then pixels
  else
    ((((pixels.set pixelIdx.toNat r).set (pixelIdx.toNat + 1) g).set
        (pixelIdx.toNat + 2) b).set (pixelIdx.toNat + 3) a)

/-- The replication loop of an RLE run packet (tgaService.ts:41-43). -/
def writeRun (width height : Nat) (btt : Bool) (r g b a : Nat) :
    Nat → Nat → List Nat → List Nat
  | 0, _, pixels => pixels
  | k + 1, pixelIndex, pixels =>
      writeRun width height btt r g b a k (pixelIndex + 1)
        (setPixel pixels pixelIndex width height r g b a btt)

/-- The literal-packet loop (tgaService.ts:45-51): reads `count` BGR(A)
pixels, returning the advanced read offset and the updated pixel array. -/
def readLiteral (pixelDepth width height : Nat) (btt : Bool) (raw : List Nat) :
    Nat → Nat → Nat → List Nat → Nat × List Nat
  | 0, offset, _, pixels => (offset, pixels)
  | k + 1, offset, pixelIndex, pixels =>
      let b := rawGet raw offset
      let g := rawGet raw (offset + 1)
      let r := rawGet raw (offset + 2)
      let a := if pixelDepth = 32 then rawGet raw (offset + 3) else 255
      let offset' := if pixelDepth = 32 then offset + 4 else offset + 3
      readLiteral pixelDepth width height btt raw k offset' (pixelIndex + 1)
        (setPixel pixels pixelIndex width height r g b a btt)

/-- The `while (pixelIndex < totalPixels)` loop of `TGAConverter.decode`
(tgaService.ts:29-61).  Every iteration produces at least one pixel
(`count = (packetHeader & 0x7F) + 1 ≥ 1`), so `width*height` iterations
always suffice; the structural `fuel` argument is instantiated with
`width*height` by `tgaDecode` and never runs out before the loop guard
fails. -/
def decodeLoop (imageType pixelDepth width height : Nat) (btt : Bool)
    (raw : List Nat) : Nat → Nat → Nat → List Nat → List Nat
  | 0, _, _, pixels => pixels
  | fuel + 1, offset, pixelIndex, pixels =>
      if pixelIndex < width * height then
        if imageType = 10 then
          let packetHeader := rawGet raw offset
          let count := (packetHeader &&& 127) + 1
          if packetHeader &&& 128 ≠ 0 then
            let b := rawGet raw (offset + 1)
            let g := rawGet raw (offset + 2)
            let r := rawGet raw (offset + 3)
            let a := if pixelDepth = 32 then rawGet raw (offset + 4) else 255
            let offset' := if pixelDepth = 32 then offset + 5 else offset + 4
            decodeLoop imageType pixelDepth width height btt raw fuel offset'
              (pixelIndex + count)
              (writeRun width height btt r g b a count pixelIndex pixels)
          else
            let res := readLiteral pixelDepth width height btt raw count
              (offset + 1) pixelIndex pixels
            decodeLoop imageType pixelDepth width height btt raw fuel res.1
              (pixelIndex + count) res.2
        else
          let b := rawGet raw offset
          let g := rawGet raw (offset + 1)
          let r := rawGet raw (offset + 2)
          let a := if pixelDepth = 32 then rawGet raw (offset + 3) else 255
          let offset' := if pixelDepth = 32 then offset + 4 else offset + 3
          decodeLoop imageType pixelDepth width height btt raw fuel offset'
            (pixelIndex + 1)
            (setPixel pixels pixelIndex width height r g b a btt)
      else pixels

/-- TGA header field, tgaService.ts:9. -/
def tgaIdLength (b : List Nat) : Nat := b.getD 0 0

/-- TGA header field, tgaService.ts:10. -/
def tgaImageType (b : List Nat) : Nat := b.getD 2 0

/-- TGA header field, tgaService.ts:11 (`getUint16(12, true)`). -/
def tgaWidth (b : List Nat) : Nat := b.getD 12 0 + 256 * b.getD 13 0

/-- TGA header field, tgaService.ts:12 (`getUint16(14, true)`). -/
def tgaHeight (b : List Nat) : Nat := b.getD 14 0 + 256 * b.getD 15 0

/-- TGA header field, tgaService.ts:13. -/
def tgaPixelDepth (b : List Nat) : Nat := b.getD 16 0

/-- TGA header field, tgaService.ts:14. -/
def tgaDescriptor (b : List Nat) : Nat := b.getD 17 0

/-- `TGAConverter.decode` (tgaService.ts:7-64), with `.error` for a thrown
exception: the `DataView` reads of the 18-byte header throw a `RangeError`
on a shorter buffer, the unsupported-type error is tgaService.ts:17 (a
Chinese message in the source), `new Uint8Array(buffer, dataStart)` throws
when `dataStart` exceeds the length, and the `ImageData` constructor
rejects a zero dimension. -/
def tgaDecode (buffer : List Nat) : Except String ImageData :=
  if buffer.length < 18 then .error "RangeError" else
  let idLength := tgaIdLength buffer
  let imageType := tgaImageType buffer
  let width := tgaWidth buffer
  let height := tgaHeight buffer
  let pixelDepth := tgaPixelDepth buffer
  let descriptor := tgaDescriptor buffer
  if imageType ≠ 2 ∧ imageType ≠ 10 then
    .error "only truecolor TGA is supported" else
  let isBottomToTop := descriptor &&& 32 == 0
  let dataStart := 18 + idLength
  if buffer.length < dataStart then .error "RangeError" else
  let raw := buffer.drop dataStart
  let pixels := decodeLoop imageType pixelDepth width height isBottomToTop raw
    (width * height) 0 0 (List.replicate (width * height * 4) 0)
  if width = 0 ∨ height = 0 then .error "IndexSizeError" else
  .ok ⟨width, height, pixels⟩

/-- One output row of `TGAConverter.encode` (tgaService.ts:104-110): the
pixels of source row `y`, each written as B,G,R,A.  A `Uint8Array` store
reduces the value modulo 256 (the identity for channel bytes below 256);
reading `data` past its end gives `undefined`, stored as 0. -/
def encodeRow (data : List Nat) (width y : Nat) : List Nat :=
  (List.range width).flatMap fun x =>
    let idx := (y * width + x) * 4
    [data.getD (idx + 2) 0 % 256, data.getD (idx + 1) 0 % 256,
     data.getD idx 0 % 256, data.getD (idx + 3) 0 % 256]

/-- `TGAConverter.encode` (tgaService.ts:87-114): a fixed 18-byte header
(type 2, depth 32, descriptor 8, the unset bytes left zero) followed by the
rows from `height - 1` down to `0`.  `setUint16` stores each dimension
modulo 2^16, little-endian. -/
def tgaEncode (img : ImageData) : List Nat :=
  [0, 0, 2, 0, 0, 0, 0, 0, 0, 0, 0, 0,
   img.width % 256, img.width / 256 % 256,
   img.height % 256, img.height / 256 % 256, 32, 8] ++
  (List.range img.height).reverse.flatMap (encodeRow img.data img.width)

/-- `BLPConverter.swapRBChannels` (blpService.ts:13-20): swaps bytes `i` and
`i + 2` for `i = 0, 4, 8, …`.  The short trailing cases mirror the
`Uint8ClampedArray` behaviour when the length is not a multiple of 4
(out-of-range reads give `undefined`, stored as 0; out-of-range writes are
dropped); an `ImageData` length is always a multiple of 4, so they never
fire in practice. -/
def swapRB : List Nat → List Nat
  | b0 :: g :: r2 :: a :: rest => r2 :: g :: b0 :: a :: swapRB rest
  | [_] => [0]
  | [_, y] => [0, y]
  | [x, y, z] => [z, y, x]
  | [] => []

/-- The in-place R/B swap applied to a decoded `ImageData`. -/
def swapRBImage (img : ImageData) : ImageData :=
  ⟨img.width, img.height, swapRB img.data⟩

/-- The `fullJpeg` assembly of `BLPConverter.decode` (blpService.ts:43-55):
when the shared-header size field is positive, the shared JPEG header at
fixed offset 160 concatenated with the level-0 payload at `offset`;
otherwise the payload alone is the complete JPEG stream. -/
def blpExtractJpeg (buffer : List Nat) : List Nat :=
  let offset := readU32 buffer 28
  let size := readU32 buffer 92
  let jpegHeaderSize := readU32 buffer 156
  if 0 < jpegHeaderSize then
    (buffer.drop 160).take jpegHeaderSize ++ (buffer.drop offset).take size
  else
    (buffer.drop offset).take size

/-- `BLPConverter.decode` (blpService.ts:25-66).  The browser JPEG decoder
(`imageToImageData`, an external collaborator built on canvas) is the
`jpegDecode` parameter, `none` modelling a failed image load.  The
`"RangeError"` errors model the exceptions that `DataView.getUint32` and
the `Uint8Array` view constructors throw on out-of-range access; the
source's Chinese error messages are rendered in English.  The width and
height fields at offsets 12/16 are read but unused by the source (the
output dimensions come from the decoded JPEG). -/
def blpDecode (jpegDecode : List Nat → Option ImageData) (buffer : List Nat) :
    Except String ImageData :=
  if buffer.length < 4 then .error "RangeError" else
  let magic := buffer.take 4
  if magic ≠ [66, 76, 80, 49] ∧ magic ≠ [66, 76, 80, 50] then
    .error "invalid BLP file format" else
  if buffer.length < 96 then .error "RangeError" else
  let ty := readU32 buffer 4
  let offset := readU32 buffer 28
  let size := readU32 buffer 92
  if ty = 0 then
    if buffer.length < 160 then .error "RangeError" else
    let jpegHeaderSize := readU32 buffer 156
    if 0 < jpegHeaderSize ∧ buffer.length < 160 + jpegHeaderSize then
      .error "RangeError" else
    if buffer.length < offset + size then .error "RangeError" else
    match jpegDecode (blpExtractJpeg buffer) with
    | none => .error "image load failed"
    | some img => .ok (swapRBImage img)
  else .error "only JPEG-compressed BLP is supported"

/-- The BLP1 header written by `BLPConverter.encode` (blpService.ts:116-139):
a 160-byte buffer (`new ArrayBuffer(headerSize + 4)` with
`headerSize = 156`) filled by `DataView.setUint32` writes — magic, type 0,
alpha-bits 8, width, height, subtype 5, has-mipmaps 1, mip offset slot 0
pointing at 160 and slots 1-15 zeroed (sixty zero bytes, as written by the
`for` loop over an already zero-initialised buffer), mip size slot 0
holding the JPEG length and slots 1-15 zeroed likewise, shared-header
size 0. -/
def blpHeader (width height jpegLen : Nat) : List Nat :=
  [66, 76, 80, 49] ++ u32le 0 ++ u32le 8 ++ u32le width ++ u32le height ++
    u32le 5 ++ u32le 1 ++
    u32le 160 ++ List.replicate 60 0 ++
    u32le jpegLen ++ List.replicate 60 0 ++ u32le 0

/-- `BLPConverter.encode` (blpService.ts:92-146) after the external JPEG
collaborator (`canvas.toBlob`) produced the byte list `jpegData`:
header ++ JPEG stream, `finalBuffer` of blpService.ts:141-143. -/
def blpEncode (width height : Nat) (jpegData : List Nat) : List Nat :=
  blpHeader width height jpegData.length ++ jpegData

/-- The mutable global environment visible to code compiled with
`new Function` (the page's global scope): an association list from
identifier to numeric value. -/
abbrev GState := List (String × ℚ)

/-- JavaScript expressions that can appear in a channel-formula text field.
`ImageProcessor.applyFormulas` splices the user text unrestricted into a
`new Function('r', 'g', 'b', 'a', 'Math', …)` body
(imageProcessor.ts:21-31), so besides the arithmetic / comparison /
ternary forms and the `Math` helpers of the intended formula language the
grammar necessarily admits free identifiers, which JavaScript resolves in
— and, for non-strict assignments, writes to — the surrounding global
scope: `globalRead` is a bare identifier (a `ReferenceError` throw when no
such global exists), `globalAssign` is `name = e`, which creates or
overwrites a global and yields the assigned value. -/
inductive JsExpr where
  | num (q : ℚ)
  | varR
  | varG
  | varB
  | varA
  | add (e₁ e₂ : JsExpr)
  | sub (e₁ e₂ : JsExpr)
  | mul (e₁ e₂ : JsExpr)
  | lt (e₁ e₂ : JsExpr)
  | ternary (c t f : JsExpr)
  | mathMin (e₁ e₂ : JsExpr)
  | mathMax (e₁ e₂ : JsExpr)
  | mathAbs (e : JsExpr)
  | mathFloor (e : JsExpr)
  | globalRead (name : String)
  | globalAssign (name : String) (e : JsExpr)
deriving DecidableEq

/-- Expression evaluation.  The four channel scalars and `Math` are the
generated function's parameters; the global state is threaded left to
right exactly as JavaScript evaluates; `none` models a thrown exception
(`ReferenceError` on an undefined identifier).  A JavaScript boolean
coerces to 1 or 0 in arithmetic, and `c ? t : f` tests `c ≠ 0`. -/
def evalExpr (r g b a : Nat) : JsExpr → GState → Option ℚ × GState
  | .num q, s => (some q, s)
  | .varR, s => (some (r : ℚ), s)
  | .varG, s => (some (g : ℚ), s)
  | .varB, s => (some (b : ℚ), s)
  | .varA, s => (some (a : ℚ), s)
  | .add e₁ e₂, s =>
      match evalExpr r g b a e₁ s with
      | (none, s₁) => (none, s₁)
      | (some v₁, s₁) =>
          match evalExpr r g b a e₂ s₁ with
          | (none, s₂) => (none, s₂)
          | (some v₂, s₂) => (some (v₁ + v₂), s₂)
  | .sub e₁ e₂, s =>
      match evalExpr r g b a e₁ s with
      | (none, s₁) => (none, s₁)
      | (some v₁, s₁) =>
          match evalExpr r g b a e₂ s₁ with
          | (none, s₂) => (none, s₂)
          | (some v₂, s₂) => (some (v₁ - v₂), s₂)
  | .mul e₁ e₂, s =>
      match evalExpr r g b a e₁ s with
      | (none, s₁) => (none, s₁)
      | (some v₁, s₁) =>
          match evalExpr r g b a e₂ s₁ with
          | (none, s₂) => (none, s₂)
          | (some v₂, s₂) => (some (v₁ * v₂), s₂)
  | .lt e₁ e₂, s =>
      match evalExpr r g b a e₁ s with
      | (none, s₁) => (none, s₁)
      | (some v₁, s₁) =>
          match evalExpr r g b a e₂ s₁ with
          | (none, s₂) => (none, s₂)
          | (some v₂, s₂) => (some (if v₁ < v₂ then 1 else 0), s₂)
  | .ternary c t f, s =>
      match evalExpr r g b a c s with
      | (none, s₁) => (none, s₁)
      | (some v, s₁) =>
          if v ≠ 0 then evalExpr r g b a t s₁ else evalExpr r g b a f s₁
  | .mathMin e₁ e₂, s =>
      match evalExpr r g b a e₁ s with
      | (none, s₁) => (none, s₁)
      | (some v₁, s₁) =>
          match evalExpr r g b a e₂ s₁ with
          | (none, s₂) => (none, s₂)
          | (some v₂, s₂) => (some (min v₁ v₂), s₂)
  | .mathMax e₁ e₂, s =>
      match evalExpr r g b a e₁ s with
      | (none, s₁) => (none, s₁)
      | (some v₁, s₁) =>
          match evalExpr r g b a e₂ s₁ with
          | (none, s₂) => (none, s₂)
          | (some v₂, s₂) => (some (max v₁ v₂), s₂)
  | .mathAbs e, s =>
      match evalExpr r g b a e s with
      | (none, s₁) => (none, s₁)
      | (some v, s₁) => (some |v|, s₁)
  | .mathFloor e, s =>
      match evalExpr r g b a e s with
      | (none, s₁) => (none, s₁)
      | (some v, s₁) => (some (⌊v⌋ : ℚ), s₁)
  | .globalRead n, s =>
      match s.lookup n with
      | some v => (some v, s)
      | none => (none, s)
  | .globalAssign n e, s =>
      match evalExpr r g b a e s with
      | (none, s₁) => (none, s₁)
      | (some v, s₁) => (some v, (n, v) :: s₁)

/-- The function `applyFormulas` builds with `new Function`
(imageProcessor.ts:21-31): evaluate the four formulas in order inside one
`try`; any throw is caught and the function falls back to returning
`[r, g, b, a]` (`none` here), while global writes performed before the
throw persist in the returned state. -/
def runShader (fr fg fb fa : JsExpr) (r g b a : Nat) (s : GState) :
    Option (ℚ × ℚ × ℚ × ℚ) × GState :=
  match evalExpr r g b a fr s with
  | (none, s₁) => (none, s₁)
  | (some nr, s₁) =>
      match evalExpr r g b a fg s₁ with
      | (none, s₂) => (none, s₂)
      | (some ng, s₂) =>
          match evalExpr r g b a fb s₂ with
          | (none, s₃) => (none, s₃)
          | (some nb, s₃) =>
              match evalExpr r g b a fa s₃ with
              | (none, s₄) => (none, s₄)
              | (some na, s₄) => (some (nr, ng, nb, na), s₄)

/-- One channel's formula text: empty (`''` is falsy, so
`formulas.c || 'c'` substitutes the identity), a text that parses as an
expression, or a text that makes the generated function body fail to
compile. -/
inductive FormulaSrc where
  | empty
  | expr (e : JsExpr)
  | invalid
deriving DecidableEq

/-- The `ChannelFormulas` record (types.ts:7-12), one formula text per
channel. -/
structure ChannelFormulas where
  r : FormulaSrc
  g : FormulaSrc
  b : FormulaSrc
  a : FormulaSrc
deriving DecidableEq

/-- `formulas.c || 'c'` followed by the splice of the text into the
generated body. -/
def channelOr (src : FormulaSrc) (dflt : JsExpr) : Option JsExpr :=
  match src with
  | .empty => some dflt
  | .expr e => some e
  | .invalid => none

/-- The `new Function(…)` call (imageProcessor.ts:21-31): compiling the
generated body succeeds exactly when every spliced formula text is
syntactically valid, and yields the four expressions evaluated per
pixel. -/
def compileFormulas (fs : ChannelFormulas) :
    Option (JsExpr × JsExpr × JsExpr × JsExpr) :=
  match channelOr fs.r .varR, channelOr fs.g .varG,
      channelOr fs.b .varB, channelOr fs.a .varA with
  | some fr, some fg, some fb, some fa => some (fr, fg, fb, fa)
  | _, _, _, _ => none

/-- Round half to even, the rounding `ToUint8Clamp` applies when a number
is stored into a `Uint8ClampedArray` element. -/
def roundHalfEven (q : ℚ) : ℤ :=
  if q - ⌊q⌋ < 1 / 2 then ⌊q⌋
  else if 1 / 2 < q - ⌊q⌋ then ⌊q⌋ + 1
  else if ⌊q⌋ % 2 = 0 then ⌊q⌋ else ⌊q⌋ + 1

/-- The value a channel assignment stores: the explicit
`Math.min(255, Math.max(0, v))` of imageProcessor.ts:42-45 followed by the
`Uint8ClampedArray` store. -/
def clampByte (q : ℚ) : Nat :=
  (roundHalfEven (min 255 (max 0 q))).toNat

/-- The per-pixel loop of `applyFormulas` (imageProcessor.ts:33-46): invoke
the compiled shader on each 4-byte group, clamp each of the four outputs
into [0,255] and store them; on a caught per-pixel throw the shader
returned `[r, g, b, a]`, so the original bytes go through the same clamp
and store. -/
def processPixels (fr fg fb fa : JsExpr) :
    List Nat → GState → List Nat × GState
  | r :: g :: b :: a :: rest, s =>
      match runShader fr fg fb fa r g b a s with
      | (none, s₁) =>
          let res := processPixels fr fg fb fa rest s₁
          (clampByte r :: clampByte g :: clampByte b :: clampByte a :: res.1,
           res.2)
      | (some (nr, ng, nb, na), s₁) =>
          let res := processPixels fr fg fb fa rest s₁
          (clampByte nr :: clampByte ng :: clampByte nb :: clampByte na ::
             res.1, res.2)
  | other, s => (other, s)

/-- The result record of `applyFormulas`: `{ data, error? }`. -/
structure ApplyResult where
  data : ImageData
  error : Option String
deriving DecidableEq

/-- `ImageProcessor.applyFormulas` (imageProcessor.ts:8-52).  The copy
`new ImageData(new Uint8ClampedArray(originalData.data), …)` is made
first; a failing `new Function` compile is caught before the loop has
touched any pixel, so the pristine copy is returned together with the
exception's message (a JavaScript `SyntaxError` message, rendered here as
a fixed string). -/
def applyFormulas (originalData : ImageData) (formulas : ChannelFormulas)
    (s : GState) : ApplyResult :=
  match compileFormulas formulas with
  | none =>
      { data := ⟨originalData.width, originalData.height, originalData.data⟩,
        error := some "SyntaxError" }
  | some (fr, fg, fb, fa) =>
      { data := ⟨originalData.width, originalData.height,
          (processPixels fr fg fb fa originalData.data s).1⟩,
        error := none }

/-- A store of `Uint8ClampedArray` backing buffers, to state that
`applyFormulas` never touches its input's backing store. -/
abbrev Heap := List (List Nat)

/-- An `ImageData` whose byte array lives in a `Heap` cell. -/
structure ImageRef where
  width : Nat
  height : Nat
  dataRef : Nat
deriving DecidableEq

/-- Read a backing buffer out of the store. -/
def heapGet (h : Heap) (i : Nat) : List Nat := h.getD i []

/-- `applyFormulas` at the store level:
`new Uint8ClampedArray(originalData.data)` allocates a fresh cell holding
a copy of the source bytes, and the pixel loop writes only into that fresh
cell; the source cell is never written. -/
def applyFormulasHeap (h : Heap) (img : ImageRef) (fs : ChannelFormulas)
    (s : GState) : Heap × ImageRef × Option String :=
  let res := applyFormulas ⟨img.width, img.height, heapGet h img.dataRef⟩ fs s
  (h ++ [res.data.data], ⟨img.width, img.height, h.length⟩, res.error)

/-- The storage pixel written by loop iteration `p` of a bottom-to-top TGA
decode: column `p % w`, target row `h - 1 - p / w`. -/
def targetPix (w h p : Nat) : Nat := (h - 1 - p / w) * w + p % w

/-- Channel shuffle of the TGA byte stream: stream channel `c` of a pixel
holds source channel `chanOff c` (B,G,R,A order). -/
def chanOff : Nat → Nat
  | 0 => 2
  | 1 => 1
  | 2 => 0
  | _ => 3

/-- A JPEG-decode collaborator producing a fixed 1x1 image whose RGB is
(10, 20, 30), for the concrete BLP scenario. -/
def jdOnePixel : List Nat → Option ImageData :=
  fun _ => some ⟨1, 1, [10, 20, 30, 255]⟩

theorem roundHalfEven_intCast (n : ℤ) : roundHalfEven (n : ℚ) = n := by
  unfold roundHalfEven
  rw [Int.floor_intCast]
  norm_num

theorem roundHalfEven_le (q : ℚ) (n : ℤ) (h : q ≤ (n : ℚ)) :
    roundHalfEven q ≤ n := by
  have hfl : ⌊q⌋ ≤ n := by
    have h2 := Int.floor_mono h
    rwa [Int.floor_intCast] at h2
  unfold roundHalfEven
  split
  · exact hfl
  · rename_i h1
    push_neg at h1
    have hq : (⌊q⌋ : ℚ) < q := by linarith
    have hne : ⌊q⌋ < n := by
      by_contra hcon
      push_neg at hcon
      have h2 : (n : ℚ) ≤ (⌊q⌋ : ℚ) := by exact_mod_cast hcon
      linarith
    split
    · omega
    · split <;> omega

theorem roundHalfEven_nonneg (q : ℚ) (h : 0 ≤ q) : 0 ≤ roundHalfEven q := by
  have h0 : (0 : ℤ) ≤ ⌊q⌋ := Int.le_floor.mpr (by exact_mod_cast h)
  unfold roundHalfEven
  split
  · exact h0
  · split
    · omega
    · split <;> omega

theorem clampByte_le (q : ℚ) : clampByte q ≤ 255 := by
  have h : min 255 (max 0 q) ≤ ((255 : ℤ) : ℚ) := by
    push_cast
    exact min_le_left (255 : ℚ) (max 0 q)
  have h2 := roundHalfEven_le _ _ h
  unfold clampByte
  omega

theorem clampByte_neg (q : ℚ) (h : q < 0) : clampByte q = 0 := by
  have hmax : max 0 q = 0 := max_eq_left h.le
  have h0 : min 255 (max 0 q) = 0 := by rw [hmax]; norm_num
  have hr : roundHalfEven (0 : ℚ) = 0 := by
    simpa using roundHalfEven_intCast 0
  unfold clampByte
  rw [h0, hr]
  rfl

theorem clampByte_gt (q : ℚ) (h : 255 < q) : clampByte q = 255 := by
  have hmax : max 0 q = q := max_eq_right (by linarith)
  have h0 : min 255 (max 0 q) = 255 := by rw [hmax]; exact min_eq_left h.le
  have hr : roundHalfEven (255 : ℚ) = 255 := by
    simpa using roundHalfEven_intCast 255
  unfold clampByte
  rw [h0, hr]
  rfl

theorem clampByte_byte (n : Nat) (h : n ≤ 255) : clampByte (n : ℚ) = n := by
  have h0 : (0 : ℚ) ≤ (n : ℚ) := by positivity
  have h255 : (n : ℚ) ≤ 255 := by exact_mod_cast h
  have hmm : min 255 (max 0 (n : ℚ)) = (n : ℚ) := by
    rw [max_eq_right h0, min_eq_right h255]
  have hr : roundHalfEven ((n : Nat) : ℚ) = (n : ℤ) := by
    have h2 := roundHalfEven_intCast (n : ℤ)
    push_cast at h2
    exact h2
  unfold clampByte
  rw [hmm, hr]
  exact Int.toNat_natCast n

theorem processPixels_length (fr fg fb fa : JsExpr) :
    ∀ (l : List Nat) (s : GState),
      (processPixels fr fg fb fa l s).1.length = l.length
  | r :: g :: b :: a :: rest, s => by
      rcases hrun : runShader fr fg fb fa r g b a s with ⟨o, s₁⟩
      cases o with
      | none =>
          simp [processPixels, hrun, processPixels_length fr fg fb fa rest s₁]
      | some v =>
          obtain ⟨nr, ng, nb, na⟩ := v
          simp [processPixels, hrun, processPixels_length fr fg fb fa rest s₁]
  | [], _ => rfl
  | [_], _ => rfl
  | [_, _], _ => rfl
  | [_, _, _], _ => rfl

theorem processPixels_bytes_le (fr fg fb fa : JsExpr) :
    ∀ (l : List Nat) (s : GState), (∀ x ∈ l, x ≤ 255) →
      ∀ x ∈ (processPixels fr fg fb fa l s).1, x ≤ 255
  | r :: g :: b :: a :: rest, s, hl => by
      rcases hrun : runShader fr fg fb fa r g b a s with ⟨o, s₁⟩
      have hrest : ∀ x ∈ rest, x ≤ 255 := fun x hx => hl x (by simp [hx])
      have ih := processPixels_bytes_le fr fg fb fa rest s₁ hrest
      cases o with
      | none =>
          simp only [processPixels, hrun]
          intro x hx
          simp only [List.mem_cons] at hx
          rcases hx with h | h | h | h | h
          · subst h; exact clampByte_le _
          · subst h; exact clampByte_le _
          · subst h; exact clampByte_le _
          · subst h; exact clampByte_le _
          · exact ih x h
      | some v =>
          obtain ⟨nr, ng, nb, na⟩ := v
          simp only [processPixels, hrun]
          intro x hx
          simp only [List.mem_cons] at hx
          rcases hx with h | h | h | h | h
          · subst h; exact clampByte_le _
          · subst h; exact clampByte_le _
          · subst h; exact clampByte_le _
          · subst h; exact clampByte_le _
          · exact ih x h
  | [], s0, _ => by
      intro x hx
      have he : processPixels fr fg fb fa [] s0 = ([], s0) := rfl
      rw [he] at hx
      simp at hx
  | [u], s0, hl => by
      intro w hw
      have he : processPixels fr fg fb fa [u] s0 = ([u], s0) := rfl
      rw [he] at hw
      simp only [List.mem_singleton] at hw
      subst hw
      exact hl w (by simp)
  | [u, v], s0, hl => by
      intro w hw
      have he : processPixels fr fg fb fa [u, v] s0 = ([u, v], s0) := rfl
      rw [he] at hw
      simp only [List.mem_cons, List.not_mem_nil, or_false] at hw
      rcases hw with h | h
      · subst h; exact hl w (by simp)
      · subst h; exact hl w (by simp)
  | [u, v, t], s0, hl => by
      intro w hw
      have he : processPixels fr fg fb fa [u, v, t] s0 = ([u, v, t], s0) := rfl
      rw [he] at hw
      simp only [List.mem_cons, List.not_mem_nil, or_false] at hw
      rcases hw with h | h | h
      · subst h; exact hl w (by simp)
      · subst h; exact hl w (by simp)
      · subst h; exact hl w (by simp)

/-- C4: when the formula set compiles, a per-pixel evaluation failure makes
`applyFormulas` store that pixel's original, unmodified channel values and
continue with the remaining pixels: the call never errors, the output
buffer keeps the input's dimensions and byte count, and a pixel whose
shader invocation throws (for example a formula referencing an undefined
identifier) is written back unchanged while processing proceeds. -/
theorem applyFormulas_pixel_failure_isolated (img : ImageData)
    (fs : ChannelFormulas) (s : GState) (fr fg fb fa : JsExpr)
    (hc : compileFormulas fs = some (fr, fg, fb, fa)) :
    ((applyFormulas img fs s).error = none ∧
     (applyFormulas img fs s).data.width = img.width ∧
     (applyFormulas img fs s).data.height = img.height ∧
     (applyFormulas img fs s).data.data.length = img.data.length) ∧
    (∀ r g b a : Nat, ∀ rest : List Nat, ∀ s' : GState,
      r ≤ 255 → g ≤ 255 → b ≤ 255 → a ≤ 255 →
      (runShader fr fg fb fa r g b a s').1 = none →
      (processPixels fr fg fb fa (r :: g :: b :: a :: rest) s').1 =
        r :: g :: b :: a ::
          (processPixels fr fg fb fa rest
            (runShader fr fg fb fa r g b a s').2).1) := by
  constructor
  · simp [applyFormulas, hc, processPixels_length]
  · intro r g b a rest s' hr hg hb ha hfail
    rcases hp : runShader fr fg fb fa r g b a s' with ⟨o, s₁⟩
    rw [hp] at hfail
    simp only at hfail
    subst hfail
    simp only [processPixels, hp, clampByte_byte r hr, clampByte_byte g hg,
      clampByte_byte b hb, clampByte_byte a ha]

/-- Witness for C4: a formula that is an undefined identifier reference
leaves a pixel unchanged and produces no error. -/
theorem applyFormulas_pixel_failure_isolated_witness :
    (applyFormulas ⟨1, 1, [5, 6, 7, 8]⟩
        ⟨.expr (.globalRead "noSuchName"), .empty, .empty, .empty⟩
        []).error = none ∧
    (applyFormulas ⟨1, 1, [5, 6, 7, 8]⟩
        ⟨.expr (.globalRead "noSuchName"), .empty, .empty, .empty⟩
        []).data.data = [5, 6, 7, 8] := by
  have h := applyFormulas_pixel_failure_isolated ⟨1, 1, [5, 6, 7, 8]⟩
      ⟨.expr (.globalRead "noSuchName"), .empty, .empty, .empty⟩ []
      (.globalRead "noSuchName") .varG .varB .varA rfl
  refine ⟨h.1.1, ?_⟩
  have hfail : (runShader (.globalRead "noSuchName") .varG .varB .varA
      5 6 7 8 ([] : GState)).1 = none := rfl
  have h2 := h.2 5 6 7 8 [] [] (by norm_num) (by norm_num) (by norm_num)
      (by norm_num) hfail
  show (processPixels (.globalRead "noSuchName") .varG .varB .varA
      [5, 6, 7, 8] []).1 = [5, 6, 7, 8]
  rw [h2]
  rfl

/-- C5: a formula set that fails to compile makes `applyFormulas` return a
buffer pixel-identical to the unmodified input together with an error
string; no partially transformed buffer is produced. -/
theorem applyFormulas_compile_failure (img : ImageData)
    (fs : ChannelFormulas) (s : GState)
    (hc : compileFormulas fs = none) :
    (applyFormulas img fs s).data.width = img.width ∧
    (applyFormulas img fs s).data.height = img.height ∧
    (applyFormulas img fs s).data.data = img.data ∧
    (applyFormulas img fs s).error = some "SyntaxError" := by
  simp [applyFormulas, hc]

/-- Witness for C5 at a concrete syntactically invalid formula set. -/
theorem applyFormulas_compile_failure_witness :
    (applyFormulas ⟨1, 1, [9, 8, 7, 6]⟩
        ⟨.invalid, .empty, .empty, .empty⟩ []).data.data = [9, 8, 7, 6] ∧
    (applyFormulas ⟨1, 1, [9, 8, 7, 6]⟩
        ⟨.invalid, .empty, .empty, .empty⟩ []).error = some "SyntaxError" := by
  have h := applyFormulas_compile_failure ⟨1, 1, [9, 8, 7, 6]⟩
      ⟨.invalid, .empty, .empty, .empty⟩ [] rfl
  exact ⟨h.2.2.1, h.2.2.2⟩

/-- C6: for every input buffer and compiling formula set, each of the four
per-pixel outputs is stored as its saturating clamp into [0,255]: the
stored bytes are `clampByte` of the shader outputs, a computed value below
0 stores 0, a value above 255 stores 255, and every stored byte is at most
255 (never wrapping). -/
theorem applyFormulas_clamps (img : ImageData) (fs : ChannelFormulas)
    (s : GState) (fr fg fb fa : JsExpr)
    (hc : compileFormulas fs = some (fr, fg, fb, fa))
    (hbytes : ∀ x ∈ img.data, x ≤ 255) :
    (∀ x ∈ (applyFormulas img fs s).data.data, x ≤ 255) ∧
    (∀ q : ℚ, q < 0 → clampByte q = 0) ∧
    (∀ q : ℚ, 255 < q → clampByte q = 255) ∧
    (∀ r g b a : Nat, ∀ rest : List Nat, ∀ s' : GState,
      ∀ nr ng nb na : ℚ, ∀ s₁ : GState,
      runShader fr fg fb fa r g b a s' = (some (nr, ng, nb, na), s₁) →
      (processPixels fr fg fb fa (r :: g :: b :: a :: rest) s').1 =
        clampByte nr :: clampByte ng :: clampByte nb :: clampByte na ::
          (processPixels fr fg fb fa rest s₁).1) := by
  refine ⟨?_, fun q hq => clampByte_neg q hq,
    fun q hq => clampByte_gt q hq, ?_⟩
  · simp only [applyFormulas, hc]
    exact processPixels_bytes_le fr fg fb fa img.data s hbytes
  · intro r g b a rest s' nr ng nb na s₁ hp
    simp only [processPixels, hp]

/-- Witness for C6: the formula `r*2` at `r = 200` stores 255. -/
theorem applyFormulas_clamps_witness :
    (∀ x ∈ (applyFormulas ⟨1, 1, [200, 0, 0, 255]⟩
        ⟨.expr (.mul .varR (.num 2)), .empty, .empty, .empty⟩ []).data.data,
      x ≤ 255) ∧
    (applyFormulas ⟨1, 1, [200, 0, 0, 255]⟩
        ⟨.expr (.mul .varR (.num 2)), .empty, .empty, .empty⟩
        []).data.data = [255, 0, 0, 255] := by
  have h := applyFormulas_clamps ⟨1, 1, [200, 0, 0, 255]⟩
      ⟨.expr (.mul .varR (.num 2)), .empty, .empty, .empty⟩ []
      (.mul .varR (.num 2)) .varG .varB .varA rfl (by decide)
  refine ⟨h.1, ?_⟩
  have hrun : runShader (.mul .varR (.num 2)) .varG .varB .varA
      200 0 0 255 ([] : GState) = (some (400, 0, 0, 255), []) := by
    simp only [runShader, evalExpr]
    norm_num
  have h2 := h.2.2.2 200 0 0 255 [] [] 400 0 0 255 [] hrun
  show (processPixels (.mul .varR (.num 2)) .varG .varB .varA
      [200, 0, 0, 255] []).1 = [255, 0, 0, 255]
  rw [h2, clampByte_gt 400 (by norm_num)]
  norm_num
  refine ⟨?_, ?_, rfl⟩
  · simpa using clampByte_byte 0 (by norm_num)
  · simpa using clampByte_byte 255 (by norm_num)

/-- C9: `applyFormulas` never mutates its input: every backing buffer that
existed before the call — in particular the input image's — holds exactly
the same bytes afterwards, the input's dimensions are preserved on the
result, and the returned buffer lives in a freshly allocated cell distinct
from the input's, so the original and transformed buffers coexist. -/
theorem applyFormulas_input_unchanged (h : Heap) (img : ImageRef)
    (fs : ChannelFormulas) (s : GState) (href : img.dataRef < h.length) :
    heapGet (applyFormulasHeap h img fs s).1 img.dataRef =
        heapGet h img.dataRef ∧
    (∀ j, j < h.length →
      heapGet (applyFormulasHeap h img fs s).1 j = heapGet h j) ∧
    (applyFormulasHeap h img fs s).2.1.dataRef ≠ img.dataRef ∧
    (applyFormulasHeap h img fs s).2.1.width = img.width ∧
    (applyFormulasHeap h img fs s).2.1.height = img.height := by
  have hall : ∀ j, j < h.length →
      heapGet (applyFormulasHeap h img fs s).1 j = heapGet h j := by
    intro j hj
    simp only [applyFormulasHeap, heapGet]
    exact List.getD_append _ _ _ _ hj
  refine ⟨hall img.dataRef href, hall, ?_, rfl, rfl⟩
  simp only [applyFormulasHeap]
  omega

/-- Witness for C9 on a one-cell store. -/
theorem applyFormulas_input_unchanged_witness :
    heapGet (applyFormulasHeap [[1, 2, 3, 4]] ⟨1, 1, 0⟩
        ⟨.empty, .empty, .empty, .empty⟩ []).1 0 = [1, 2, 3, 4] ∧
    (applyFormulasHeap [[1, 2, 3, 4]] ⟨1, 1, 0⟩
        ⟨.empty, .empty, .empty, .empty⟩ []).2.1.dataRef ≠ 0 := by
  have h := applyFormulas_input_unchanged [[1, 2, 3, 4]] ⟨1, 1, 0⟩
      ⟨.empty, .empty, .empty, .empty⟩ [] (by decide)
  exact ⟨h.1, h.2.2.1⟩

/-- C3 evidence: the compiled transform is not confined to the four scalar
channel inputs and the math namespace.  Because `applyFormulas` splices the
formula text unrestricted into a `new Function` body, a formula that is a
bare global identifier compiles and makes the per-pixel output depend on
the surrounding global state (two invocations agreeing on `(r, g, b, a)`
differ), and a formula containing a non-strict assignment compiles and
mutates the global state — refuting the claimed purity and isolation of
the compiled per-pixel function. -/
theorem compiledFormula_escapes_sandbox :
    compileFormulas ⟨.expr (.globalRead "externalState"), .empty, .empty,
        .empty⟩ =
      some (.globalRead "externalState", .varG, .varB, .varA) ∧
    (runShader (.globalRead "externalState") .varG .varB .varA 1 2 3 4
        [("externalState", 9)]).1 ≠
      (runShader (.globalRead "externalState") .varG .varB .varA 1 2 3 4
        [("externalState", 10)]).1 ∧
    (runShader (.globalAssign "leak" (.num 5)) .varG .varB .varA 1 2 3 4
        []).2 ≠ ([] : GState) := by
  refine ⟨rfl, ?_, ?_⟩ <;> decide

/-- C2 evidence: a type-10 (RLE truecolor) TGA whose packet stream is
entirely missing (an 18-byte file declaring width 1, height 1, depth 32)
decodes without any error to a fully sized, zero-filled pixel buffer — the
reads past the end of the stream yield `undefined` (0 here) instead of
aborting with a `CorruptData` failure. -/
theorem tgaDecode_truncated_rle_silently_succeeds :
    tgaDecode [0, 0, 10, 0, 0, 0, 0, 0, 0, 0, 0, 0, 1, 0, 1, 0, 32, 8] =
      .ok ⟨1, 1, [0, 0, 0, 0]⟩ := rfl

theorem setPixel_length (pixels : List Nat) (index width height r g b a : Nat)
    (btt : Bool) :
    (setPixel pixels index width height r g b a btt).length = pixels.length := by
  unfold setPixel
  dsimp only
  split <;> split <;> simp

theorem writeRun_length (width height : Nat) (btt : Bool) (r g b a : Nat) :
    ∀ (k pixelIndex : Nat) (pixels : List Nat),
      (writeRun width height btt r g b a k pixelIndex pixels).length =
        pixels.length
  | 0, _, _ => rfl
  | k + 1, pixelIndex, pixels => by
      rw [writeRun, writeRun_length width height btt r g b a k,
        setPixel_length]

theorem readLiteral_length (pixelDepth width height : Nat) (btt : Bool)
    (raw : List Nat) :
    ∀ (k offset pixelIndex : Nat) (pixels : List Nat),
      (readLiteral pixelDepth width height btt raw k offset pixelIndex
        pixels).2.length = pixels.length
  | 0, _, _, _ => rfl
  | k + 1, offset, pixelIndex, pixels => by
      rw [readLiteral]
      rw [readLiteral_length pixelDepth width height btt raw k,
        setPixel_length]

theorem decodeLoop_length (it pd w h : Nat) (btt : Bool) (raw : List Nat) :
    ∀ (fuel offset pixelIndex : Nat) (pixels : List Nat),
      (decodeLoop it pd w h btt raw fuel offset pixelIndex pixels).length =
        pixels.length
  | 0, _, _, _ => rfl
  | fuel + 1, offset, pixelIndex, pixels => by
      simp only [decodeLoop]
      split
      · split
        · split
          · rw [decodeLoop_length it pd w h btt raw fuel, writeRun_length]
          · rw [decodeLoop_length it pd w h btt raw fuel, readLiteral_length]
        · rw [decodeLoop_length it pd w h btt raw fuel, setPixel_length]
      · rfl

/-- C10: for every buffer of length at least `18 + idLength` whose header
declares image type 2 or 10 and positive dimensions, `tgaDecode`
terminates and returns a pixel buffer of exactly `width*height*4` bytes
even when the pixel data section is truncated, and a read past the end of
the available bytes yields the channel value 0 rather than an
exception. -/
theorem decodeLoop_guard_stop (it pd w h : Nat) (btt : Bool)
    (raw : List Nat) (fuel offset p : Nat) (pixels : List Nat)
    (hp : w * h ≤ p) :
    decodeLoop it pd w h btt raw fuel offset p pixels = pixels := by
  cases fuel with
  | zero => rfl
  | succ f => rw [decodeLoop, if_neg (by omega)]

theorem decodeLoop_fuel_sufficient (it pd w h : Nat) (btt : Bool)
    (raw : List Nat) :
    ∀ (fuel₁ fuel₂ offset p : Nat) (pixels : List Nat),
      w * h ≤ p + fuel₁ → w * h ≤ p + fuel₂ →
      decodeLoop it pd w h btt raw fuel₁ offset p pixels =
        decodeLoop it pd w h btt raw fuel₂ offset p pixels
  | 0, fuel₂, offset, p, pixels, h₁, h₂ => by
      rw [decodeLoop_guard_stop it pd w h btt raw 0 offset p pixels
        (by omega),
        decodeLoop_guard_stop it pd w h btt raw fuel₂ offset p pixels
        (by omega)]
  | f₁ + 1, 0, offset, p, pixels, h₁, h₂ => by
      rw [decodeLoop_guard_stop it pd w h btt raw (f₁ + 1) offset p pixels
        (by omega),
        decodeLoop_guard_stop it pd w h btt raw 0 offset p pixels (by omega)]
  | f₁ + 1, f₂ + 1, offset, p, pixels, h₁, h₂ => by
      by_cases hp : p < w * h
      · simp only [decodeLoop]
        rw [if_pos hp, if_pos hp]
        by_cases h10 : it = 10
        · rw [if_pos h10, if_pos h10]
          by_cases hrle : rawGet raw offset &&& 128 ≠ 0
          · rw [if_pos hrle, if_pos hrle]
            exact decodeLoop_fuel_sufficient it pd w h btt raw f₁ f₂ _ _ _
              (by omega) (by omega)
          · rw [if_neg hrle, if_neg hrle]
            exact decodeLoop_fuel_sufficient it pd w h btt raw f₁ f₂ _ _ _
              (by omega) (by omega)
        · rw [if_neg h10, if_neg h10]
          exact decodeLoop_fuel_sufficient it pd w h btt raw f₁ f₂ _ _ _
            (by omega) (by omega)
      · rw [decodeLoop_guard_stop it pd w h btt raw (f₁ + 1) offset p pixels
          (by omega),
          decodeLoop_guard_stop it pd w h btt raw (f₂ + 1) offset p pixels
          (by omega)]

theorem tgaDecode_total_on_truncated (buffer : List Nat)
    (hlen : 18 + tgaIdLength buffer ≤ buffer.length)
    (htype : tgaImageType buffer = 2 ∨ tgaImageType buffer = 10)
    (hw : 1 ≤ tgaWidth buffer) (hh : 1 ≤ tgaHeight buffer) :
    (∃ img, tgaDecode buffer = .ok img ∧
      img.width = tgaWidth buffer ∧ img.height = tgaHeight buffer ∧
      img.data.length = tgaWidth buffer * tgaHeight buffer * 4) ∧
    (∀ (l : List Nat) (i : Nat), l.length ≤ i → rawGet l i = 0) := by
  constructor
  · have h1 : ¬ buffer.length < 18 := by omega
    have h2 : ¬ (tgaImageType buffer ≠ 2 ∧ tgaImageType buffer ≠ 10) := by
      tauto
    have h3 : ¬ buffer.length < 18 + tgaIdLength buffer := by omega
    have h4 : ¬ (tgaWidth buffer = 0 ∨ tgaHeight buffer = 0) := by omega
    refine ⟨⟨tgaWidth buffer, tgaHeight buffer,
      decodeLoop (tgaImageType buffer) (tgaPixelDepth buffer)
        (tgaWidth buffer) (tgaHeight buffer)
        (tgaDescriptor buffer &&& 32 == 0)
        (buffer.drop (18 + tgaIdLength buffer))
        (tgaWidth buffer * tgaHeight buffer) 0 0
        (List.replicate (tgaWidth buffer * tgaHeight buffer * 4) 0)⟩,
      ?_, rfl, rfl, ?_⟩
    · simp only [tgaDecode, h1, h2, h3, h4, if_false]
    · rw [decodeLoop_length]
      simp
  · intro l i hi
    exact List.getD_eq_default l 0 hi

/-- Witness for C10: an uncompressed 2x1 TGA whose pixel section holds only
one of the two declared pixels still decodes to a full 8-byte buffer. -/
theorem tgaDecode_total_on_truncated_witness :
    tgaIdLength [0, 0, 2, 0, 0, 0, 0, 0, 0, 0, 0, 0, 2, 0, 1, 0, 32, 8,
        1, 2, 3, 4] = 0 ∧
    (∃ img, tgaDecode [0, 0, 2, 0, 0, 0, 0, 0, 0, 0, 0, 0, 2, 0, 1, 0, 32, 8,
        1, 2, 3, 4] = .ok img ∧ img.data.length = 8) := by
  have h := tgaDecode_total_on_truncated
      [0, 0, 2, 0, 0, 0, 0, 0, 0, 0, 0, 0, 2, 0, 1, 0, 32, 8, 1, 2, 3, 4]
      (by decide) (by decide) (by decide) (by decide)
  obtain ⟨⟨img, heq, _, _, hlen⟩, _⟩ := h
  exact ⟨rfl, ⟨img, heq, hlen⟩⟩

theorem u32le_length (n : Nat) : (u32le n).length = 4 := rfl

theorem getD_append_skip (A B : List Nat) (n k : Nat) (hA : A.length = n)
    (hk : n ≤ k) : (A ++ B).getD k 0 = B.getD (k - n) 0 := by
  subst hA
  exact List.getD_append_right A B 0 k hk

theorem getD_append_within (A B : List Nat) (k : Nat) (hk : k < A.length) :
    (A ++ B).getD k 0 = A.getD k 0 :=
  List.getD_append A B 0 k hk

theorem getD_replicate0 : ∀ n i : Nat, (List.replicate n 0).getD i 0 = 0
  | 0, _ => by simp
  | _ + 1, 0 => rfl
  | n + 1, i + 1 => getD_replicate0 n i

theorem readU32_append_skip (A B : List Nat) (n k : Nat) (hA : A.length = n)
    (hk : n ≤ k) : readU32 (A ++ B) k = readU32 B (k - n) := by
  simp only [readU32]
  rw [getD_append_skip A B n k hA hk, getD_append_skip A B n (k + 1) hA
      (by omega), getD_append_skip A B n (k + 2) hA (by omega),
    getD_append_skip A B n (k + 3) hA (by omega),
    show k + 1 - n = k - n + 1 by omega, show k + 2 - n = k - n + 2 by omega,
    show k + 3 - n = k - n + 3 by omega]

theorem readU32_append_within (A B : List Nat) (k : Nat)
    (hk : k + 4 ≤ A.length) : readU32 (A ++ B) k = readU32 A k := by
  simp only [readU32]
  rw [getD_append_within A B k (by omega), getD_append_within A B (k + 1)
      (by omega), getD_append_within A B (k + 2) (by omega),
    getD_append_within A B (k + 3) (by omega)]

theorem blpEncode_getD_tail (w h : Nat) (jpeg : List Nat) (k : Nat)
    (hk : 32 ≤ k) :
    (blpEncode w h jpeg).getD k 0 =
      (List.replicate 60 0 ++ (u32le jpeg.length ++ (List.replicate 60 0 ++
        (u32le 0 ++ jpeg)))).getD (k - 32) 0 := by
  simp only [blpEncode, blpHeader, List.append_assoc]
  rw [getD_append_skip [66, 76, 80, 49] _ 4 k (by norm_num) (by omega),
    getD_append_skip _ _ 4 _ (u32le_length 0) (by omega),
    getD_append_skip _ _ 4 _ (u32le_length 8) (by omega),
    getD_append_skip _ _ 4 _ (u32le_length w) (by omega),
    getD_append_skip _ _ 4 _ (u32le_length h) (by omega),
    getD_append_skip _ _ 4 _ (u32le_length 5) (by omega),
    getD_append_skip _ _ 4 _ (u32le_length 1) (by omega),
    getD_append_skip _ _ 4 _ (u32le_length 160) (by omega)]
  have hidx : k - 4 - 4 - 4 - 4 - 4 - 4 - 4 - 4 = k - 32 := by omega
  rw [hidx]

theorem blpEncode_getD_zeroA (w h : Nat) (jpeg : List Nat) (k : Nat)
    (h1 : 32 ≤ k) (h2 : k < 92) : (blpEncode w h jpeg).getD k 0 = 0 := by
  rw [blpEncode_getD_tail w h jpeg k h1,
    getD_append_within _ _ _ (by simp only [List.length_replicate]; omega), getD_replicate0]

theorem blpEncode_getD_zeroB (w h : Nat) (jpeg : List Nat) (k : Nat)
    (h1 : 96 ≤ k) (h2 : k < 156) : (blpEncode w h jpeg).getD k 0 = 0 := by
  rw [blpEncode_getD_tail w h jpeg k (by omega),
    getD_append_skip _ _ 60 _ (by simp) (by omega),
    getD_append_skip _ _ 4 _ (u32le_length jpeg.length) (by omega),
    getD_append_within _ _ _ (by simp only [List.length_replicate]; omega), getD_replicate0]

set_option maxHeartbeats 1000000 in
/-- C8: `blpEncode` emits the fixed BLP1 header — magic `BLP1`, type 0,
alpha-bits 8, the source width and height, subtype 5, has-mipmaps 1, mip
offset slot 0 pointing at the payload start (byte 160) with slots 1-15
zeroed, mip size slot 0 equal to the JPEG byte length with slots 1-15
zeroed, and shared-JPEG-header size 0 — followed immediately by the
complete JPEG stream as the level-0 payload. -/
theorem blpEncode_header_fields (w h : Nat) (jpeg : List Nat)
    (hw : w < 4294967296) (hh : h < 4294967296)
    (hl : jpeg.length < 4294967296) :
    (blpEncode w h jpeg).take 4 = [66, 76, 80, 49] ∧
    readU32 (blpEncode w h jpeg) 4 = 0 ∧
    readU32 (blpEncode w h jpeg) 8 = 8 ∧
    readU32 (blpEncode w h jpeg) 12 = w ∧
    readU32 (blpEncode w h jpeg) 16 = h ∧
    readU32 (blpEncode w h jpeg) 20 = 5 ∧
    readU32 (blpEncode w h jpeg) 24 = 1 ∧
    readU32 (blpEncode w h jpeg) 28 = 160 ∧
    (∀ i, 1 ≤ i → i ≤ 15 → readU32 (blpEncode w h jpeg) (28 + i * 4) = 0) ∧
    readU32 (blpEncode w h jpeg) 92 = jpeg.length ∧
    (∀ i, 1 ≤ i → i ≤ 15 → readU32 (blpEncode w h jpeg) (92 + i * 4) = 0) ∧
    readU32 (blpEncode w h jpeg) 156 = 0 ∧
    (blpEncode w h jpeg).drop 160 = jpeg := by
  refine ⟨rfl, ?_, ?_, ?_, ?_, ?_, ?_, ?_, ?_, ?_, ?_, ?_, ?_⟩
  · simp only [blpEncode, blpHeader, List.append_assoc]
    rw [readU32_append_skip [66, 76, 80, 49] _ 4 4 (by norm_num) (by omega)]
    norm_num
    rw [readU32_append_within _ _ 0 (by rw [u32le_length])]
    simp [readU32, u32le]
  · simp only [blpEncode, blpHeader, List.append_assoc]
    rw [readU32_append_skip [66, 76, 80, 49] _ 4 8 (by norm_num) (by omega),
      readU32_append_skip _ _ 4 _ (u32le_length 0) (by omega)]
    norm_num
    rw [readU32_append_within _ _ 0 (by rw [u32le_length])]
    simp [readU32, u32le]
  · simp only [blpEncode, blpHeader, List.append_assoc]
    rw [readU32_append_skip [66, 76, 80, 49] _ 4 12 (by norm_num) (by omega),
      readU32_append_skip _ _ 4 _ (u32le_length 0) (by omega),
      readU32_append_skip _ _ 4 _ (u32le_length 8) (by omega)]
    norm_num
    rw [readU32_append_within _ _ 0 (by rw [u32le_length])]
    simp [readU32, u32le]
    omega
  · simp only [blpEncode, blpHeader, List.append_assoc]
    rw [readU32_append_skip [66, 76, 80, 49] _ 4 16 (by norm_num) (by omega),
      readU32_append_skip _ _ 4 _ (u32le_length 0) (by omega),
      readU32_append_skip _ _ 4 _ (u32le_length 8) (by omega),
      readU32_append_skip _ _ 4 _ (u32le_length w) (by omega)]
    norm_num
    rw [readU32_append_within _ _ 0 (by rw [u32le_length])]
    simp [readU32, u32le]
    omega
  · simp only [blpEncode, blpHeader, List.append_assoc]
    rw [readU32_append_skip [66, 76, 80, 49] _ 4 20 (by norm_num) (by omega),
      readU32_append_skip _ _ 4 _ (u32le_length 0) (by omega),
      readU32_append_skip _ _ 4 _ (u32le_length 8) (by omega),
      readU32_append_skip _ _ 4 _ (u32le_length w) (by omega),
      readU32_append_skip _ _ 4 _ (u32le_length h) (by omega)]
    norm_num
    rw [readU32_append_within _ _ 0 (by rw [u32le_length])]
    simp [readU32, u32le]
  · simp only [blpEncode, blpHeader, List.append_assoc]
    rw [readU32_append_skip [66, 76, 80, 49] _ 4 24 (by norm_num) (by omega),
      readU32_append_skip _ _ 4 _ (u32le_length 0) (by omega),
      readU32_append_skip _ _ 4 _ (u32le_length 8) (by omega),
      readU32_append_skip _ _ 4 _ (u32le_length w) (by omega),
      readU32_append_skip _ _ 4 _ (u32le_length h) (by omega),
      readU32_append_skip _ _ 4 _ (u32le_length 5) (by omega)]
    norm_num
    rw [readU32_append_within _ _ 0 (by rw [u32le_length])]
    simp [readU32, u32le]
  · simp only [blpEncode, blpHeader, List.append_assoc]
    rw [readU32_append_skip [66, 76, 80, 49] _ 4 28 (by norm_num) (by omega),
      readU32_append_skip _ _ 4 _ (u32le_length 0) (by omega),
      readU32_append_skip _ _ 4 _ (u32le_length 8) (by omega),
      readU32_append_skip _ _ 4 _ (u32le_length w) (by omega),
      readU32_append_skip _ _ 4 _ (u32le_length h) (by omega),
      readU32_append_skip _ _ 4 _ (u32le_length 5) (by omega),
      readU32_append_skip _ _ 4 _ (u32le_length 1) (by omega)]
    norm_num
    rw [readU32_append_within _ _ 0 (by rw [u32le_length])]
    simp [readU32, u32le]
  · intro i h1 h15
    simp only [readU32]
    rw [blpEncode_getD_zeroA w h jpeg (28 + i * 4) (by omega) (by omega),
      blpEncode_getD_zeroA w h jpeg (28 + i * 4 + 1) (by omega) (by omega),
      blpEncode_getD_zeroA w h jpeg (28 + i * 4 + 2) (by omega) (by omega),
      blpEncode_getD_zeroA w h jpeg (28 + i * 4 + 3) (by omega) (by omega)]
  · simp only [readU32]
    rw [blpEncode_getD_tail w h jpeg 92 (by omega),
      blpEncode_getD_tail w h jpeg 93 (by omega),
      blpEncode_getD_tail w h jpeg 94 (by omega),
      blpEncode_getD_tail w h jpeg 95 (by omega)]
    simp only [Nat.reduceSub]
    rw [getD_append_skip _ _ 60 60 (by simp) (by omega),
      getD_append_skip _ _ 60 61 (by simp) (by omega),
      getD_append_skip _ _ 60 62 (by simp) (by omega),
      getD_append_skip _ _ 60 63 (by simp) (by omega)]
    simp only [Nat.reduceSub]
    rw [getD_append_within _ _ 0 (by rw [u32le_length]; omega),
      getD_append_within _ _ 1 (by rw [u32le_length]; omega),
      getD_append_within _ _ 2 (by rw [u32le_length]; omega),
      getD_append_within _ _ 3 (by rw [u32le_length]; omega)]
    simp [u32le]
    omega
  · intro i h1 h15
    simp only [readU32]
    rw [blpEncode_getD_zeroB w h jpeg (92 + i * 4) (by omega) (by omega),
      blpEncode_getD_zeroB w h jpeg (92 + i * 4 + 1) (by omega) (by omega),
      blpEncode_getD_zeroB w h jpeg (92 + i * 4 + 2) (by omega) (by omega),
      blpEncode_getD_zeroB w h jpeg (92 + i * 4 + 3) (by omega) (by omega)]
  · simp only [readU32]
    rw [blpEncode_getD_tail w h jpeg 156 (by omega),
      blpEncode_getD_tail w h jpeg 157 (by omega),
      blpEncode_getD_tail w h jpeg 158 (by omega),
      blpEncode_getD_tail w h jpeg 159 (by omega)]
    simp only [Nat.reduceSub]
    rw [getD_append_skip _ _ 60 124 (by simp) (by omega),
      getD_append_skip _ _ 60 125 (by simp) (by omega),
      getD_append_skip _ _ 60 126 (by simp) (by omega),
      getD_append_skip _ _ 60 127 (by simp) (by omega)]
    simp only [Nat.reduceSub]
    rw [getD_append_skip _ _ 4 64 (u32le_length jpeg.length) (by omega),
      getD_append_skip _ _ 4 65 (u32le_length jpeg.length) (by omega),
      getD_append_skip _ _ 4 66 (u32le_length jpeg.length) (by omega),
      getD_append_skip _ _ 4 67 (u32le_length jpeg.length) (by omega)]
    simp only [Nat.reduceSub]
    rw [getD_append_skip _ _ 60 60 (by simp) (by omega),
      getD_append_skip _ _ 60 61 (by simp) (by omega),
      getD_append_skip _ _ 60 62 (by simp) (by omega),
      getD_append_skip _ _ 60 63 (by simp) (by omega)]
    simp only [Nat.reduceSub]
    rw [getD_append_within _ _ 0 (by rw [u32le_length]; omega),
      getD_append_within _ _ 1 (by rw [u32le_length]; omega),
      getD_append_within _ _ 2 (by rw [u32le_length]; omega),
      getD_append_within _ _ 3 (by rw [u32le_length]; omega)]
    simp [u32le]
  · have hlen : (blpHeader w h jpeg.length).length = 160 := by
      simp [blpHeader, u32le_length]
    show (blpHeader w h jpeg.length ++ jpeg).drop 160 = jpeg
    rw [show (160 : Nat) = (blpHeader w h jpeg.length).length + 0 from by
      rw [hlen], List.drop_append]
    rfl

set_option maxRecDepth 8000 in
/-- Witness for C8 at a concrete 2x3 image with a 3-byte JPEG stream. -/
theorem blpEncode_header_fields_witness :
    readU32 (blpEncode 2 3 [7, 8, 9]) 12 = 2 ∧
    readU32 (blpEncode 2 3 [7, 8, 9]) 92 = 3 ∧
    (blpEncode 2 3 [7, 8, 9]).drop 160 = [7, 8, 9] := by
  have h := blpEncode_header_fields 2 3 [7, 8, 9] (by norm_num) (by norm_num)
      (by norm_num)
  exact ⟨h.2.2.2.1, h.2.2.2.2.2.2.2.2.2.1, h.2.2.2.2.2.2.2.2.2.2.2.2⟩

/-- C1: `blpDecode` applies the R/B swap to the JPEG-decoded pixels
unconditionally, for both `BLP1` and `BLP2` magic values: whenever the
magic is either value, the compression type is 0 and the JPEG collaborator
decodes the extracted stream, the result is exactly the swap of the
decoded image. -/
theorem blpDecode_swaps_unconditionally
    (jpegDecode : List Nat → Option ImageData) (buffer : List Nat)
    (img : ImageData)
    (hmagic : buffer.take 4 = [66, 76, 80, 49] ∨
      buffer.take 4 = [66, 76, 80, 50])
    (hty : readU32 buffer 4 = 0)
    (hlen : 160 ≤ buffer.length)
    (hjhs : 0 < readU32 buffer 156 →
      160 + readU32 buffer 156 ≤ buffer.length)
    (hpay : readU32 buffer 28 + readU32 buffer 92 ≤ buffer.length)
    (hjd : jpegDecode (blpExtractJpeg buffer) = some img) :
    blpDecode jpegDecode buffer = .ok (swapRBImage img) := by
  have h4 : ¬ buffer.length < 4 := by omega
  have hm : ¬ (buffer.take 4 ≠ [66, 76, 80, 49] ∧
      buffer.take 4 ≠ [66, 76, 80, 50]) := by tauto
  have h96 : ¬ buffer.length < 96 := by omega
  have h160 : ¬ buffer.length < 160 := by omega
  have hj : ¬ (0 < readU32 buffer 156 ∧
      buffer.length < 160 + readU32 buffer 156) := by
    rintro ⟨hp, hl2⟩
    have := hjhs hp
    omega
  have hp2 : ¬ buffer.length < readU32 buffer 28 + readU32 buffer 92 := by
    omega
  simp only [blpDecode, h4, hm, h96, hty, h160, hj, hp2, if_false, if_true,
    hjd]

set_option maxRecDepth 8000 in
set_option maxHeartbeats 1000000 in
/-- Witness for C1: the spec's concrete scenario — a type-0 BLP1 container
whose 1x1 embedded JPEG decodes to RGB (10, 20, 30) decodes to the pixel
(30, 20, 10). -/
theorem blpDecode_swaps_unconditionally_witness :
    blpDecode jdOnePixel (blpHeader 1 1 0) =
      .ok ⟨1, 1, [30, 20, 10, 255]⟩ := by
  have h := blpDecode_swaps_unconditionally jdOnePixel (blpHeader 1 1 0)
      ⟨1, 1, [10, 20, 30, 255]⟩ (Or.inl rfl) rfl (by decide) (by decide)
      (by decide) rfl
  exact h

theorem div_mod_decomp (w p : Nat) (hw : 0 < w) :
    ∃ j x, p = w * j + x ∧ x < w ∧ p / w = j ∧ p % w = x := by
  refine ⟨p / w, p % w, (Nat.div_add_mod p w).symm, Nat.mod_lt _ hw, rfl, rfl⟩

theorem targetPix_lt (w h p : Nat) (hw : 0 < w) (hp : p < w * h) :
    targetPix w h p < w * h := by
  obtain ⟨j, x, hjx, hx, hdiv, hmod⟩ := div_mod_decomp w p hw
  have hj : j < h := by
    rw [← hdiv, Nat.div_lt_iff_lt_mul hw, Nat.mul_comm]
    exact hp
  unfold targetPix
  rw [hdiv, hmod]
  calc (h - 1 - j) * w + x
      < (h - 1 - j) * w + w := Nat.add_lt_add_left hx _
    _ = (h - 1 - j + 1) * w := by ring
    _ ≤ h * w := Nat.mul_le_mul_right w (by omega)
    _ = w * h := Nat.mul_comm _ _

theorem targetPix_invol (w h p : Nat) (hw : 0 < w) (hp : p < w * h) :
    targetPix w h (targetPix w h p) = p := by
  obtain ⟨j, x, hjx, hx, hdiv, hmod⟩ := div_mod_decomp w p hw
  have hj : j < h := by
    rw [← hdiv, Nat.div_lt_iff_lt_mul hw, Nat.mul_comm]
    exact hp
  unfold targetPix
  rw [hdiv, hmod]
  have hdiv2 : ((h - 1 - j) * w + x) / w = h - 1 - j := by
    rw [Nat.add_comm, Nat.add_mul_div_right _ _ hw, Nat.div_eq_of_lt hx,
      Nat.zero_add]
  have hmod2 : ((h - 1 - j) * w + x) % w = x := by
    rw [Nat.add_comm, Nat.add_mul_mod_self_right]
    exact Nat.mod_eq_of_lt hx
  rw [hdiv2, hmod2]
  have h2 : h - 1 - (h - 1 - j) = j := by omega
  rw [h2, hjx, Nat.mul_comm j w]

theorem getD_set_self (l : List Nat) (i v : Nat) (h : i < l.length) :
    (l.set i v).getD i 0 = v := by
  rw [List.getD_eq_getElem _ _ (by simpa using h)]
  simp

theorem getD_set_ne (l : List Nat) (i j v : Nat) (h : i ≠ j) :
    (l.set i v).getD j 0 = l.getD j 0 := by
  rw [List.getD_eq_getElem?_getD, List.getD_eq_getElem?_getD,
    List.getElem?_set_ne h]

theorem reverse_range_flatMap (n : Nat) (f : Nat → List Nat) :
    (List.range n).reverse.flatMap f =
      (List.range n).flatMap fun j => f (n - 1 - j) := by
  rw [List.range_eq_range', List.reverse_range', List.flatMap_map]
  simp [← List.range_eq_range']

theorem flatMap_range_length (f : Nat → List Nat) (B : Nat) :
    ∀ n, (∀ j, j < n → (f j).length = B) →
      ((List.range n).flatMap f).length = n * B
  | 0, _ => by simp
  | n + 1, hB => by
      rw [List.range_succ, List.flatMap_append, List.length_append,
        flatMap_range_length f B n (fun j hj => hB j (by omega))]
      simp only [List.flatMap_cons, List.flatMap_nil, List.append_nil]
      rw [hB n (by omega)]
      ring

theorem flatMap_range_getD (f : Nat → List Nat) (B : Nat) (hB0 : 0 < B) :
    ∀ n i, (∀ j, j < n → (f j).length = B) → i < n * B →
      ((List.range n).flatMap f).getD i 0 = (f (i / B)).getD (i % B) 0
  | 0, i, _, hi => by
      exfalso
      omega
  | n + 1, i, hB, hi => by
      rw [List.range_succ, List.flatMap_append]
      by_cases hcase : i < n * B
      · rw [getD_append_within _ _ i (by
          rw [flatMap_range_length f B n (fun j hj => hB j (by omega))]
          exact hcase)]
        exact flatMap_range_getD f B hB0 n i (fun j hj => hB j (by omega))
          hcase
      · rw [getD_append_skip _ _ (n * B) i
          (flatMap_range_length f B n (fun j hj => hB j (by omega)))
          (by omega)]
        have hsB : (n + 1) * B = n * B + B := by ring
        obtain ⟨rr, hrr, hieq⟩ : ∃ rr, rr < B ∧ i = B * n + rr :=
          ⟨i - n * B, by
            constructor
            · omega
            · have : B * n = n * B := Nat.mul_comm _ _
              omega⟩
        have hdiv : i / B = n := by
          rw [hieq, Nat.mul_add_div hB0, Nat.div_eq_of_lt hrr, Nat.add_zero]
        have hmod : i % B = rr := by
          rw [hieq, Nat.mul_add_mod]
          exact Nat.mod_eq_of_lt hrr
        have hsub : i - n * B = rr := by
          have : B * n = n * B := Nat.mul_comm _ _
          omega
        rw [hdiv, hmod, hsub]
        simp

theorem encodeRow_length (D : List Nat) (w y : Nat) :
    (encodeRow D w y).length = w * 4 := by
  unfold encodeRow
  exact flatMap_range_length _ 4 w (fun j _ => rfl)

theorem encodeRow_getD (D : List Nat) (w y r : Nat) (hr : r < w * 4) :
    (encodeRow D w y).getD r 0 =
      [D.getD ((y * w + r / 4) * 4 + 2) 0 % 256,
       D.getD ((y * w + r / 4) * 4 + 1) 0 % 256,
       D.getD ((y * w + r / 4) * 4) 0 % 256,
       D.getD ((y * w + r / 4) * 4 + 3) 0 % 256].getD (r % 4) 0 := by
  unfold encodeRow
  exact flatMap_range_getD _ 4 (by norm_num) w r (fun j _ => rfl) hr

theorem setPixel_btt_eq (pixels : List Nat) (p w h r g b a : Nat)
    (hw : 0 < w) (hp : p < w * h) :
    setPixel pixels p w h r g b a true =
      ((((pixels.set (targetPix w h p * 4) r).set (targetPix w h p * 4 + 1)
          g).set (targetPix w h p * 4 + 2) b).set (targetPix w h p * 4 + 3)
          a) := by
  obtain ⟨j, x, hjx, hx, hdiv, hmod⟩ := div_mod_decomp w p hw
  have hj : j < h := by
    rw [← hdiv, Nat.div_lt_iff_lt_mul hw, Nat.mul_comm]
    exact hp
  unfold setPixel
  dsimp only
  rw [hdiv, hmod]
  have hcast : (((h : Int) - 1 - (j : Int)) * (w : Int) + (x : Int)) * 4 =
      ((targetPix w h p * 4 : Nat) : Int) := by
    have e1 : (h : Int) - 1 - (j : Int) = ((h - 1 - j : Nat) : Int) := by
      omega
    rw [e1]
    unfold targetPix
    rw [hdiv, hmod]
    push_cast
    ring
  rw [if_pos rfl, hcast, if_neg (by
    push_neg
    exact Int.natCast_nonneg _)]
  rw [Int.toNat_natCast]

theorem tga_body_getD (D : List Nat) (w h p c : Nat) (hw : 0 < w)
    (hp : p < w * h) (hc : c < 4) (hD : D.length = w * h * 4)
    (hbytes : ∀ y ∈ D, y < 256) :
    ((List.range h).reverse.flatMap (encodeRow D w)).getD (4 * p + c) 0 =
      D.getD (targetPix w h p * 4 + chanOff c) 0 := by
  obtain ⟨j, x, hjx, hx, hdiv, hmod⟩ := div_mod_decomp w p hw
  have hj : j < h := by
    rw [← hdiv, Nat.div_lt_iff_lt_mul hw, Nat.mul_comm]
    exact hp
  rw [reverse_range_flatMap]
  have hlen : ∀ y, y < h → (encodeRow D w (h - 1 - y)).length = w * 4 :=
    fun y _ => encodeRow_length D w (h - 1 - y)
  have hi : 4 * p + c < h * (w * 4) := by
    have hle : 4 * p + c < 4 * (w * h) := by omega
    have he2 : 4 * (w * h) = h * (w * 4) := by ring
    omega
  rw [flatMap_range_getD _ (w * 4) (by positivity) h (4 * p + c) hlen hi]
  have hsplit : 4 * p + c = (w * 4) * j + (4 * x + c) := by
    rw [hjx]
    ring
  have hinner : 4 * x + c < w * 4 := by omega
  have hdivB : (4 * p + c) / (w * 4) = j := by
    rw [hsplit, Nat.mul_add_div (by positivity), Nat.div_eq_of_lt hinner,
      Nat.add_zero]
  have hmodB : (4 * p + c) % (w * 4) = 4 * x + c := by
    rw [hsplit, Nat.mul_add_mod]
    exact Nat.mod_eq_of_lt hinner
  rw [hdivB, hmodB]
  rw [encodeRow_getD D w (h - 1 - j) (4 * x + c) hinner]
  have h2 : (4 * x + c) / 4 = x := by omega
  have h3 : (4 * x + c) % 4 = c := by omega
  rw [h2, h3]
  have hbase : ((h - 1 - j) * w + x) * 4 = targetPix w h p * 4 := by
    unfold targetPix
    rw [hdiv, hmod]
  rw [hbase]
  have hmod256 : ∀ k, k < D.length → D.getD k 0 % 256 = D.getD k 0 := by
    intro k hk
    have hmem : D.getD k 0 ∈ D := by
      rw [List.getD_eq_getElem _ _ hk]
      exact List.getElem_mem _
    exact Nat.mod_eq_of_lt (hbytes _ hmem)
  have htlt : targetPix w h p < w * h := targetPix_lt w h p hw hp
  have hrange : targetPix w h p * 4 + 3 < D.length := by
    rw [hD]
    have he3 : w * h * 4 = targetPix w h p * 4 + (w * h - targetPix w h p) * 4
        := by
      rw [← Nat.add_mul, Nat.add_sub_cancel' (Nat.le_of_lt htlt)]
    have he4 : 4 ≤ (w * h - targetPix w h p) * 4 := by
      have : 1 ≤ w * h - targetPix w h p := by omega
      omega
    omega
  interval_cases c
  · rw [show chanOff 0 = 2 from rfl]
    simp only [List.getD_cons_zero]
    exact hmod256 _ (by omega)
  · rw [show chanOff 1 = 1 from rfl]
    simp only [List.getD_cons_succ, List.getD_cons_zero]
    exact hmod256 _ (by omega)
  · rw [show chanOff 2 = 0 from rfl]
    simp only [List.getD_cons_succ, List.getD_cons_zero]
    rw [Nat.add_zero]
    exact hmod256 _ (by omega)
  · rw [show chanOff 3 = 3 from rfl]
    simp only [List.getD_cons_succ, List.getD_cons_zero]
    exact hmod256 _ (by omega)

theorem decodeLoop_rt (w h : Nat) (D body : List Nat) (hw : 0 < w)
    (hD : D.length = w * h * 4)
    (hbody : ∀ p c, p < w * h → c < 4 →
      body.getD (4 * p + c) 0 = D.getD (targetPix w h p * 4 + chanOff c) 0) :
    ∀ (fuel p : Nat) (pixels : List Nat), w * h ≤ p + fuel →
      pixels.length = w * h * 4 →
      ∀ i, i < w * h * 4 →
        (decodeLoop 2 32 w h true body fuel (4 * p) p pixels).getD i 0 =
          if p ≤ targetPix w h (i / 4) then D.getD i 0
          else pixels.getD i 0
  | 0, p, pixels, hfuel, hplen, i, hi => by
      have hq : i / 4 < w * h := by omega
      have htq := targetPix_lt w h (i / 4) hw hq
      rw [show decodeLoop 2 32 w h true body 0 (4 * p) p pixels = pixels from
        rfl]
      rw [if_neg (by omega)]
  | fuel + 1, p, pixels, hfuel, hplen, i, hi => by
      have hq : i / 4 < w * h := by omega
      have htq := targetPix_lt w h (i / 4) hw hq
      by_cases hp : p < w * h
      · have hstep : decodeLoop 2 32 w h true body (fuel + 1) (4 * p) p
            pixels = decodeLoop 2 32 w h true body fuel (4 * p + 4) (p + 1)
              (setPixel pixels p w h (rawGet body (4 * p + 2))
                (rawGet body (4 * p + 1)) (rawGet body (4 * p))
                (rawGet body (4 * p + 3)) true) := by
          rw [decodeLoop]
          rw [if_pos hp, if_neg (by norm_num)]
          norm_num
        have hτlt := targetPix_lt w h p hw hp
        have h2b : rawGet body (4 * p) =
            D.getD (targetPix w h p * 4 + 2) 0 := by
          have hb := hbody p 0 hp (by norm_num)
          simpa [rawGet, chanOff] using hb
        have h2g : rawGet body (4 * p + 1) =
            D.getD (targetPix w h p * 4 + 1) 0 := by
          have hb := hbody p 1 hp (by norm_num)
          simpa [rawGet, chanOff] using hb
        have h2r : rawGet body (4 * p + 2) =
            D.getD (targetPix w h p * 4) 0 := by
          have hb := hbody p 2 hp (by norm_num)
          simpa [rawGet, chanOff] using hb
        have h2a : rawGet body (4 * p + 3) =
            D.getD (targetPix w h p * 4 + 3) 0 := by
          have hb := hbody p 3 hp (by norm_num)
          simpa [rawGet, chanOff] using hb
        rw [hstep, h2r, h2g, h2b, h2a,
          setPixel_btt_eq pixels p w h _ _ _ _ hw hp]
        set τ := targetPix w h p with hτ
        set P1 := ((((pixels.set (τ * 4) (D.getD (τ * 4) 0)).set (τ * 4 + 1)
          (D.getD (τ * 4 + 1) 0)).set (τ * 4 + 2)
          (D.getD (τ * 4 + 2) 0)).set (τ * 4 + 3)
          (D.getD (τ * 4 + 3) 0)) with hP1
        have hlen1 : P1.length = w * h * 4 := by
          rw [hP1]
          simp [hplen]
        have hrec := decodeLoop_rt w h D body hw hD hbody fuel (p + 1) P1
          (by omega) hlen1 i hi
        rw [show 4 * p + 4 = 4 * (p + 1) from by ring, hrec]
        rcases Nat.lt_trichotomy (targetPix w h (i / 4)) p with hlt | heq | hgt
        · rw [if_neg (by omega), if_neg (by omega), hP1]
          have hne : i / 4 ≠ τ := by
            intro hcon
            have hinv := targetPix_invol w h p hw hp
            rw [hτ] at hcon
            rw [hcon, hinv] at hlt
            omega
          rw [getD_set_ne _ _ _ _ (by omega), getD_set_ne _ _ _ _ (by omega),
            getD_set_ne _ _ _ _ (by omega), getD_set_ne _ _ _ _ (by omega)]
        · rw [if_pos (show p ≤ targetPix w h (i / 4) by omega),
            if_neg (show ¬ p + 1 ≤ targetPix w h (i / 4) by omega), hP1]
          have hqτ : τ = i / 4 := by
            rw [hτ, ← heq, targetPix_invol w h (i / 4) hw hq]
          have h4 : i % 4 = 0 ∨ i % 4 = 1 ∨ i % 4 = 2 ∨ i % 4 = 3 := by omega
          rcases h4 with hc4 | hc4 | hc4 | hc4
          · have hieq2 : τ * 4 = i := by omega
            rw [getD_set_ne _ _ _ _ (by omega), getD_set_ne _ _ _ _ (by omega),
              getD_set_ne _ _ _ _ (by omega), hieq2,
              getD_set_self _ _ _ (by rw [hplen]; omega)]
          · have hieq2 : τ * 4 + 1 = i := by omega
            rw [getD_set_ne _ _ _ _ (by omega), getD_set_ne _ _ _ _ (by omega),
              hieq2, getD_set_self _ _ _ (by simp [hplen]; omega)]
          · have hieq2 : τ * 4 + 2 = i := by omega
            rw [getD_set_ne _ _ _ _ (by omega), hieq2,
              getD_set_self _ _ _ (by simp [hplen]; omega)]
          · have hieq2 : τ * 4 + 3 = i := by omega
            rw [hieq2, getD_set_self _ _ _ (by simp [hplen]; omega)]
        · rw [if_pos (by omega), if_pos (by omega)]
      · have hstop : decodeLoop 2 32 w h true body (fuel + 1) (4 * p) p
            pixels = pixels := by
          rw [decodeLoop, if_neg hp]
        rw [hstop, if_neg (by omega)]

set_option maxHeartbeats 1000000 in
/-- C7 (amended): for every pixel buffer whose dimensions are at least 1
and fit the TGA header's 16-bit fields (below 65536), decoding the encoded
bytes reproduces the buffer exactly — same width, same height, and
byte-for-byte identical pixel data. -/
theorem tga_roundtrip (img : ImageData)
    (hw : 1 ≤ img.width) (hw2 : img.width < 65536)
    (hh : 1 ≤ img.height) (hh2 : img.height < 65536)
    (hlen : img.data.length = img.width * img.height * 4)
    (hbytes : ∀ x ∈ img.data, x < 256) :
    tgaDecode (tgaEncode img) = .ok img := by
  obtain ⟨w, h, D⟩ := img
  dsimp only at hw hw2 hh hh2 hlen hbytes
  have henc : tgaEncode ⟨w, h, D⟩ =
      [0, 0, 2, 0, 0, 0, 0, 0, 0, 0, 0, 0, w % 256, w / 256 % 256,
        h % 256, h / 256 % 256, 32, 8] ++
        (List.range h).reverse.flatMap (encodeRow D w) := rfl
  rw [henc]
  set hdr : List Nat := [0, 0, 2, 0, 0, 0, 0, 0, 0, 0, 0, 0, w % 256,
    w / 256 % 256, h % 256, h / 256 % 256, 32, 8] with hhdr
  set body := (List.range h).reverse.flatMap (encodeRow D w) with hbodydef
  have hhdrlen : hdr.length = 18 := by rw [hhdr]; rfl
  have hid : tgaIdLength (hdr ++ body) = 0 := by
    show (hdr ++ body).getD 0 0 = 0
    rw [getD_append_within _ _ 0 (by omega), hhdr]
    rfl
  have htype : tgaImageType (hdr ++ body) = 2 := by
    show (hdr ++ body).getD 2 0 = 2
    rw [getD_append_within _ _ 2 (by omega), hhdr]
    rfl
  have hW : tgaWidth (hdr ++ body) = w := by
    show (hdr ++ body).getD 12 0 + 256 * (hdr ++ body).getD 13 0 = w
    rw [getD_append_within _ _ 12 (by omega),
      getD_append_within _ _ 13 (by omega), hhdr]
    show w % 256 + 256 * (w / 256 % 256) = w
    omega
  have hH : tgaHeight (hdr ++ body) = h := by
    show (hdr ++ body).getD 14 0 + 256 * (hdr ++ body).getD 15 0 = h
    rw [getD_append_within _ _ 14 (by omega),
      getD_append_within _ _ 15 (by omega), hhdr]
    show h % 256 + 256 * (h / 256 % 256) = h
    omega
  have hdepth : tgaPixelDepth (hdr ++ body) = 32 := by
    show (hdr ++ body).getD 16 0 = 32
    rw [getD_append_within _ _ 16 (by omega), hhdr]
    rfl
  have hdesc : tgaDescriptor (hdr ++ body) = 8 := by
    show (hdr ++ body).getD 17 0 = 8
    rw [getD_append_within _ _ 17 (by omega), hhdr]
    rfl
  have hbtt : (tgaDescriptor (hdr ++ body) &&& 32 == 0) = true := by
    rw [hdesc]
    rfl
  have hlen18 : ¬ (hdr ++ body).length < 18 := by
    rw [List.length_append]
    omega
  have hcond2 : ¬ (tgaImageType (hdr ++ body) ≠ 2 ∧
      tgaImageType (hdr ++ body) ≠ 10) := by
    rw [htype]
    simp
  have hcond3 : ¬ (hdr ++ body).length < 18 + tgaIdLength (hdr ++ body) := by
    rw [hid, List.length_append]
    omega
  have hcond4 : ¬ (tgaWidth (hdr ++ body) = 0 ∨
      tgaHeight (hdr ++ body) = 0) := by
    rw [hW, hH]
    omega
  have hdrop : (hdr ++ body).drop (18 + tgaIdLength (hdr ++ body)) = body := by
    rw [hid, Nat.add_zero,
      show (18 : Nat) = hdr.length + 0 from by omega, List.drop_append]
    rfl
  have hbody' : ∀ p c, p < w * h → c < 4 →
      body.getD (4 * p + c) 0 = D.getD (targetPix w h p * 4 + chanOff c)
        0 := by
    intro p c hp hc
    rw [hbodydef]
    exact tga_body_getD D w h p c (by omega) hp hc hlen hbytes
  have hlenrep : (List.replicate (w * h * 4) 0 : List Nat).length =
      w * h * 4 := by
    simp
  have hloop : decodeLoop 2 32 w h true body (w * h) 0 0
      (List.replicate (w * h * 4) 0) = D := by
    have hptw := decodeLoop_rt w h D body (by omega) hlen hbody' (w * h) 0
      (List.replicate (w * h * 4) 0) (by omega) hlenrep
    simp only [Nat.mul_zero] at hptw
    apply List.ext_getElem
    · rw [decodeLoop_length, hlenrep, hlen]
    · intro n h1 h2
      have hnlt : n < w * h * 4 := by
        rwa [decodeLoop_length, hlenrep] at h1
      have hn := hptw n hnlt
      rw [if_pos (Nat.zero_le _)] at hn
      rw [← List.getD_eq_getElem _ 0 h1, ← List.getD_eq_getElem _ 0 h2]
      exact hn
  simp only [tgaDecode, hlen18, htype, hW, hH, hid, hdepth, hdesc,
    if_false, Nat.add_zero]
  rw [if_neg (show ¬ ((2 : Nat) ≠ 2 ∧ (2 : Nat) ≠ 10) by norm_num),
    if_neg (show ¬ (w = 0 ∨ h = 0) by omega),
    show ((8 : Nat) &&& 32 == 0) = true from rfl,
    show (18 : Nat) = hdr.length + 0 from by omega,
    List.drop_append, List.drop_zero, hloop]

/-- Witness for the amended C7 at a concrete 1x1 image. -/
theorem tga_roundtrip_witness :
    tgaDecode (tgaEncode ⟨1, 1, [1, 2, 3, 4]⟩) = .ok ⟨1, 1, [1, 2, 3, 4]⟩ :=
  tga_roundtrip ⟨1, 1, [1, 2, 3, 4]⟩ (by norm_num) (by norm_num)
    (by norm_num) (by norm_num) (by norm_num) (by decide)

/-- C7 counterexample: the claim as stated fails for a pixel buffer of
width 65536 — `setUint16` stores the width modulo 2^16, so the encoded
header declares width 0 and decoding it does not return the original
buffer (the `ImageData` constructor throws on the zero dimension). -/
theorem tga_roundtrip_fails_at_width_65536 :
    tgaDecode (tgaEncode ⟨65536, 1, List.replicate 262144 0⟩) ≠
      .ok ⟨65536, 1, List.replicate 262144 0⟩ := by
  have henc : tgaEncode ⟨65536, 1, List.replicate 262144 0⟩ =
      [0, 0, 2, 0, 0, 0, 0, 0, 0, 0, 0, 0, 65536 % 256, 65536 / 256 % 256,
        1 % 256, 1 / 256 % 256, 32, 8] ++
        (List.range 1).reverse.flatMap
          (encodeRow (List.replicate 262144 0) 65536) := rfl
  rw [henc]
  set hdr : List Nat := [0, 0, 2, 0, 0, 0, 0, 0, 0, 0, 0, 0, 65536 % 256,
    65536 / 256 % 256, 1 % 256, 1 / 256 % 256, 32, 8] with hhdr
  set body := (List.range 1).reverse.flatMap
    (encodeRow (List.replicate 262144 0) 65536) with hbodydef
  have hhdrlen : hdr.length = 18 := by rw [hhdr]; rfl
  have hid : tgaIdLength (hdr ++ body) = 0 := by
    show (hdr ++ body).getD 0 0 = 0
    rw [getD_append_within _ _ 0 (by omega), hhdr]
    rfl
  have htype : tgaImageType (hdr ++ body) = 2 := by
    show (hdr ++ body).getD 2 0 = 2
    rw [getD_append_within _ _ 2 (by omega), hhdr]
    rfl
  have hW : tgaWidth (hdr ++ body) = 0 := by
    show (hdr ++ body).getD 12 0 + 256 * (hdr ++ body).getD 13 0 = 0
    rw [getD_append_within _ _ 12 (by omega),
      getD_append_within _ _ 13 (by omega), hhdr]
    rfl
  have hlen18 : ¬ (hdr ++ body).length < 18 := by
    rw [List.length_append]
    omega
  have hcond2 : ¬ (tgaImageType (hdr ++ body) ≠ 2 ∧
      tgaImageType (hdr ++ body) ≠ 10) := by
    rw [htype]
    simp
  have hcond3 : ¬ (hdr ++ body).length < 18 + tgaIdLength (hdr ++ body) := by
    rw [hid, List.length_append]
    omega
  have hcond4 : tgaWidth (hdr ++ body) = 0 ∨ tgaHeight (hdr ++ body) = 0 :=
    Or.inl hW
  simp only [tgaDecode, hlen18, hcond2, hcond3, hcond4, if_false, if_true]
  exact fun hcon => Except.noConfusion hcon
